import Mathlib

/-!
# MbrIndex: a spatial index over minimum bounding rectangles

A shallow embedding of `core/src/fragment/mbr_index.cc`.

Modelling decisions, all visible in the definitions below:

* Coordinates are `double`s in the source. Every comparison the index makes is an order
  comparison, so the coordinate type is an arbitrary linear order `α` (the finite doubles and
  the two infinities are one). NaN is outside the model.
* A coordinate block (`const double*`, one element of `mbrs`, or the query `subarray`) is read
  by offset only, so it is a function from offsets to coordinates.
* The two trees (`rtree2d_`, `rtree3d_`) are Boost.Geometry packed R-trees whose type is fixed
  in `mbr_index.h`, which is not among the sources. The tree is therefore a parameter
  (`SpatialTree`) with its contract stated as `SpatialTree.Lawful`; `packedTree` further down
  is a concrete bulk-loaded tree with bounding-box pruning that meets the contract.
* Allocation failures (the `catch (...)` branches) and the process-wide message string
  `tiledb_mi_errmsg` are outside the model: the first needs a resource model, the second is
  not part of any index.
* Identities are the positions `i` of the build loop; they are natural numbers here and are
  converted to `int64_t` (an `Int`) when they are appended to the result vector. The integer
  type that `value2d` and `value3d` store them in is fixed in `mbr_index.h`; a list of blocks
  too long for it (or for the `int idx` of `testTree2d`) is outside the model.
-/

namespace TileDB

/-! ## Geometry -/

/-- A coordinate block or a query window: the doubles behind a `const double*`, read as
`mbr[k]`. -/
abbrev Block (α : Type) := Nat → α

/-- The block that holds the listed values at offsets `0, 1, ...` (and `z` past the end); used
to write concrete inputs. -/
def blockOf {α : Type} (z : α) (l : List α) : Block α := fun k => l.getD k z

/-- The type `point2d`: coordinates `get<0>` and `get<1>`. -/
structure point2d (α : Type) where
  get0 : α
  get1 : α
  deriving DecidableEq

/-- The type `point3d`: coordinates `get<0>`, `get<1>` and `get<2>`. -/
structure point3d (α : Type) where
  get0 : α
  get1 : α
  get2 : α
  deriving DecidableEq

/-- The type `box2d`. Its two-point constructor stores the points it is given, in the order
given: `testTree2d` compares the stored corners with the caller's raw values for equality. -/
structure box2d (α : Type) where
  min_corner : point2d α
  max_corner : point2d α
  deriving DecidableEq

/-- The type `box3d`, see `box2d`. -/
structure box3d (α : Type) where
  min_corner : point3d α
  max_corner : point3d α
  deriving DecidableEq

/-- The type `value2d`: a box paired with the position of its block in `mbrs`. -/
abbrev value2d (α : Type) := box2d α × Nat

/-- The type `value3d`: a box paired with the position of its block in `mbrs`. -/
abbrev value3d (α : Type) := box3d α × Nat

/-- Modelled from the spec: the predicate `bgi::intersects` on two 2D boxes (Boost.Geometry is
not among the sources). Overlap on every axis, `a.min[i] <= b.max[i]` and
`b.min[i] <= a.max[i]`; equality at the boundary counts. -/
def box2d.intersects {α : Type} [LinearOrder α] (a b : box2d α) : Bool :=
  decide (a.min_corner.get0 ≤ b.max_corner.get0) && decide (b.min_corner.get0 ≤ a.max_corner.get0)
    && decide (a.min_corner.get1 ≤ b.max_corner.get1)
    && decide (b.min_corner.get1 ≤ a.max_corner.get1)

/-- Modelled from the spec: the predicate `bgi::intersects` on two 3D boxes, see
`box2d.intersects`. -/
def box3d.intersects {α : Type} [LinearOrder α] (a b : box3d α) : Bool :=
  decide (a.min_corner.get0 ≤ b.max_corner.get0) && decide (b.min_corner.get0 ≤ a.max_corner.get0)
    && decide (a.min_corner.get1 ≤ b.max_corner.get1)
    && decide (b.min_corner.get1 ≤ a.max_corner.get1)
    && decide (a.min_corner.get2 ≤ b.max_corner.get2)
    && decide (b.min_corner.get2 ≤ a.max_corner.get2)

/-- The expression `box2d(point2d(mbr[0], mbr[2]), point2d(mbr[1], mbr[3]))` of `build2d` and
`intersect2d`. -/
def mkBox2d {α : Type} (mbr : Block α) : box2d α :=
  box2d.mk (point2d.mk (mbr 0) (mbr 2)) (point2d.mk (mbr 1) (mbr 3))

/-- The expression `box3d(point3d(mbr[0], mbr[2], mbr[4]), point3d(mbr[1], mbr[3], mbr[5]))`
of `build3d` and `intersect3d`. -/
def mkBox3d {α : Type} (mbr : Block α) : box3d α :=
  box3d.mk (point3d.mk (mbr 0) (mbr 2) (mbr 4)) (point3d.mk (mbr 1) (mbr 3) (mbr 5))

/-! ## The tree as a parameter -/

/-- Modelled from the spec: the operations of the packed R-tree behind `pack_rtree2d` and
`pack_rtree3d` (declared in `mbr_index.h`, which is not among the sources) that the index
uses. `empty` is the default-constructed tree, `pack` the bulk-loading constructor,
`entries` the sequence `begin() .. end()` visits, `query` what
`query(bgi::intersects(window), out)` writes to `out`. -/
structure SpatialTree (B : Type) where
  Tree : Type
  empty : Tree
  pack : List (B × Nat) → Tree
  entries : Tree → List (B × Nat)
  query : Tree → B → List (B × Nat)

/-- Modelled from the spec: the contract of the tree. A default-constructed tree has no
entry; bulk loading keeps every entry exactly once, in an order of the tree's choosing; a
window query on a bulk-loaded tree yields exactly the entries whose box intersects the window,
each once, in an order of the tree's choosing. -/
structure SpatialTree.Lawful {B : Type} (hits : B → B → Bool) (R : SpatialTree B) : Prop where
  entries_empty : R.entries R.empty = []
  entries_pack : ∀ l, (R.entries (R.pack l)).Perm l
  query_pack : ∀ l w, (R.query (R.pack l) w).Perm (l.filter (fun v => hits v.1 w))

/-! ## The index -/

/-- Modelled from the spec: the success status `TILEDB_MI_OK`, a constant of `mbr_index.h`,
which is not among the sources. The value is the one TileDB gives its success codes; the
theorems use only that it differs from `TILEDB_MI_ERR`. -/
def TILEDB_MI_OK : Int := 0

/-- Modelled from the spec: the error status `TILEDB_MI_ERR`, a constant of `mbr_index.h`,
which is not among the sources. -/
def TILEDB_MI_ERR : Int := -1

/-- The members of `MbrIndex`: the stored dimensionality and the two trees. -/
structure MbrIndex {α : Type} (R2 : SpatialTree (box2d α)) (R3 : SpatialTree (box3d α)) where
  dim_num_ : Int
  rtree2d_ : R2.Tree
  rtree3d_ : R3.Tree

/-- What `buildTree` leaves behind: the returned status and the index. -/
structure BuildOut {α : Type} (R2 : SpatialTree (box2d α)) (R3 : SpatialTree (box3d α)) where
  status : Int
  index : MbrIndex R2 R3

/-- What `intersectQuery` leaves behind: the returned status, the caller's result vector and
the index. -/
structure QueryOut {α : Type} (R2 : SpatialTree (box2d α)) (R3 : SpatialTree (box3d α)) where
  status : Int
  result : List Int
  index : MbrIndex R2 R3

/-- The constructor `MbrIndex::MbrIndex()`: `dim_num_ = 0`, both trees default-constructed. -/
def MbrIndex.new {α : Type} (R2 : SpatialTree (box2d α)) (R3 : SpatialTree (box3d α)) :
    MbrIndex R2 R3 :=
  { dim_num_ := 0, rtree2d_ := R2.empty, rtree3d_ := R3.empty }

/-- The loop of `build2d`: `pairs[i] = (box of mbrs[i], i)`, `i` counting up from the position
of the first block. -/
def pairs2d {α : Type} (i : Nat) : List (Block α) → List (value2d α)
  | [] => []
  | mbr :: rest => (mkBox2d mbr, i) :: pairs2d (i + 1) rest

/-- The loop of `build3d`. -/
def pairs3d {α : Type} (i : Nat) : List (Block α) → List (value3d α)
  | [] => []
  | mbr :: rest => (mkBox3d mbr, i) :: pairs3d (i + 1) rest

/-- The method `build2d`: bulk-load a tree from the pairs and assign it to `rtree2d_`. -/
def MbrIndex.build2d {α : Type} {R2 : SpatialTree (box2d α)} {R3 : SpatialTree (box3d α)}
    (self : MbrIndex R2 R3) (mbrs : List (Block α)) : MbrIndex R2 R3 :=
  { self with rtree2d_ := R2.pack (pairs2d 0 mbrs) }

/-- The method `build3d`: bulk-load a tree from the pairs and assign it to `rtree3d_`. -/
def MbrIndex.build3d {α : Type} {R2 : SpatialTree (box2d α)} {R3 : SpatialTree (box3d α)}
    (self : MbrIndex R2 R3) (mbrs : List (Block α)) : MbrIndex R2 R3 :=
  { self with rtree3d_ := R3.pack (pairs3d 0 mbrs) }

/-- The method `buildTree`. -/
def MbrIndex.buildTree {α : Type} {R2 : SpatialTree (box2d α)} {R3 : SpatialTree (box3d α)}
    (self : MbrIndex R2 R3) (mbrs : List (Block α)) (dim : Int) : BuildOut R2 R3 :=
  if dim = 2 then
    { status := TILEDB_MI_OK, index := MbrIndex.build2d { self with dim_num_ := 2 } mbrs }
  else if dim = 3 then
    { status := TILEDB_MI_OK, index := MbrIndex.build3d { self with dim_num_ := 3 } mbrs }
  else
    { status := TILEDB_MI_ERR, index := self }

/-- The call `std::sort(result.begin(), result.end())`: the vector in non-decreasing order.
(`sortResult_unique` below: every sorting algorithm produces this list.) -/
def sortResult (result : List Int) : List Int :=
  result.insertionSort (fun a b => a ≤ b)

/-- The method `intersect2d`: query the 2D tree, append the identity of every match to
`result`, sort `result`. -/
def MbrIndex.intersect2d {α : Type} {R2 : SpatialTree (box2d α)} {R3 : SpatialTree (box3d α)}
    (self : MbrIndex R2 R3) (subarray : Block α) (result : List Int) : List Int :=
  let query_box := mkBox2d subarray
  let q := R2.query self.rtree2d_ query_box
  sortResult (result ++ q.map (fun c => (c.2 : Int)))

/-- The method `intersect3d`: query the 3D tree, append the identity of every match to
`result`, sort `result`. -/
def MbrIndex.intersect3d {α : Type} {R2 : SpatialTree (box2d α)} {R3 : SpatialTree (box3d α)}
    (self : MbrIndex R2 R3) (subarray : Block α) (result : List Int) : List Int :=
  let query_box := mkBox3d subarray
  let q := R3.query self.rtree3d_ query_box
  sortResult (result ++ q.map (fun c => (c.2 : Int)))

/-- The method `intersectQuery`: dispatch on the stored dimensionality. No member is assigned,
so the index comes back as it went in. -/
def MbrIndex.intersectQuery {α : Type} {R2 : SpatialTree (box2d α)}
    {R3 : SpatialTree (box3d α)} (self : MbrIndex R2 R3) (subarray : Block α)
    (result : List Int) : QueryOut R2 R3 :=
  if self.dim_num_ = 2 then
    { status := TILEDB_MI_OK, result := self.intersect2d subarray result, index := self }
  else if self.dim_num_ = 3 then
    { status := TILEDB_MI_OK, result := self.intersect3d subarray result, index := self }
  else
    { status := TILEDB_MI_ERR, result := result, index := self }

/-- The method `testTree2d`. The loop body ends in an unconditional `break`, so only the first
entry the iteration visits is compared; an empty iteration leaves `result = true`. `none`
stands for the read `mbrs[idx]` past the end of the vector. -/
def MbrIndex.testTree2d {α : Type} [DecidableEq α] {R2 : SpatialTree (box2d α)}
    {R3 : SpatialTree (box3d α)} (self : MbrIndex R2 R3) (mbrs : List (Block α)) :
    Option Bool :=
  match R2.entries self.rtree2d_ with
  | [] => some true
  | it :: _ =>
    match mbrs[it.2]? with
    | none => none
    | some mbr =>
      some (decide (it.1.min_corner.get0 = mbr 0) && decide (it.1.min_corner.get1 = mbr 2)
        && decide (it.1.max_corner.get0 = mbr 1) && decide (it.1.max_corner.get1 = mbr 3))

/-! ## The claims' reference definitions -/

/-- The axis-overlap rule on two blocks in the layout `[min_0, max_0, ..., min_{d-1},
max_{d-1}]`: `e.min_k <= w.max_k` and `w.min_k <= e.max_k` on every axis `k < d`. -/
def axisOverlap {α : Type} [LinearOrder α] (d : Nat) (e w : Block α) : Prop :=
  ∀ k, k < d → e (2 * k) ≤ w (2 * k + 1) ∧ w (2 * k) ≤ e (2 * k + 1)

instance axisOverlap.instDecidable {α : Type} [LinearOrder α] (d : Nat) (e w : Block α) :
    Decidable (axisOverlap d e w) :=
  Nat.decidableBallLT d (fun k _ => e (2 * k) ≤ w (2 * k + 1) ∧ w (2 * k) ≤ e (2 * k + 1))

/-- The brute-force answer, computed without a tree: the positions `0, 1, ...` of `mbrs` in
ascending order, keeping those whose block axis-overlaps the window. -/
def bruteForce {α : Type} [LinearOrder α] (d : Nat) (mbrs : List (Block α)) (w : Block α) :
    List Int :=
  ((List.range mbrs.length).filter (fun i =>
    match mbrs[i]? with
    | some e => decide (axisOverlap d e w)
    | none => false)).map (fun (i : Nat) => (i : Int))

/-- A block is ordered on its first `d` axes: `min_k <= max_k`. -/
def ordered {α : Type} [LinearOrder α] (d : Nat) (e : Block α) : Prop :=
  ∀ k, k < d → e (2 * k) ≤ e (2 * k + 1)

/-- Two blocks touch on one of the first `d` axes: `e.max_k = w.min_k` or
`w.max_k = e.min_k`. -/
def touches {α : Type} (d : Nat) (e w : Block α) : Prop :=
  ∃ k, k < d ∧ (e (2 * k + 1) = w (2 * k) ∨ w (2 * k + 1) = e (2 * k))

/-! ## A bulk-loaded tree with bounding-box pruning -/

/-- Modelled from the spec: cut a list into consecutive groups of at most `M` elements, each
group given as its first element and the rest (part of the bulk loader, which is not among
the sources). -/
def groups {X : Type} (M : Nat) : List X → List (X × List X)
  | [] => []
  | x :: xs =>
    match groups M xs with
    | [] => [(x, [])]
    | g :: gs => if g.2.length + 1 < M then (x, g.1 :: g.2) :: gs else (x, []) :: g :: gs

/-- Modelled from the spec: the nodes of height `h` of the tree. A leaf (`h = 0`) is a list of
entries; an internal node is a list of children, each with its bounding box. -/
def Level (B : Type) : Nat → Type
  | 0 => List (B × Nat)
  | h + 1 => List (B × Level B h)

/-- Modelled from the spec: the entries below a node, in the order an iteration visits
them. -/
def Level.entries {B : Type} : (h : Nat) → Level B h → List (B × Nat)
  | 0, vals => vals
  | h + 1, children => List.flatMap children (fun c => Level.entries h c.2)

/-- Modelled from the spec: the window query of the query engine. A child whose bounding box
does not intersect the window is pruned with everything below it; at a leaf every entry is
tested against the window. -/
def Level.query {B : Type} (hits : B → B → Bool) : (h : Nat) → Level B h → B → List (B × Nat)
  | 0, vals, w => List.filter (fun v => hits v.1 w) vals
  | h + 1, children, w =>
    List.flatMap children (fun c => if hits c.1 w then Level.query hits h c.2 w else [])

/-- Modelled from the spec: a tree is a root node of some height. -/
structure PackedTree (B : Type) where
  height : Nat
  root : Level B height

/-- Modelled from the spec: the bounding box of a group, the first box expanded by each of the
others. -/
def boundsOf {B : Type} (expand : B → B → B) (first : B) (rest : List B) : B :=
  rest.foldl expand first

/-- Modelled from the spec: one packing step. Every group of nodes becomes a child of the next
level, stored with the bounding box of the group. -/
def packStep {B X : Type} (expand : B → B → B) (M : Nat) (nodes : List (B × X)) :
    List (B × List (B × X)) :=
  (groups M nodes).map (fun g => (boundsOf expand g.1.1 (g.2.map Prod.fst), g.1 :: g.2))

/-- Modelled from the spec: pack level upon level until the nodes fit into one root. When the
fuel runs out the nodes left become the children of the root as they are. -/
def packUp {B : Type} (expand : B → B → B) (M : Nat) :
    Nat → (h : Nat) → List (B × Level B h) → PackedTree B
  | 0, h, nodes => { height := h + 1, root := nodes }
  | fuel + 1, h, nodes =>
    if nodes.length ≤ M then { height := h + 1, root := nodes }
    else packUp expand M fuel (h + 1) (packStep expand M nodes)

/-- Modelled from the spec: the bulk loader. The entries are sorted by `before`, cut into
leaves of at most `M` entries, and the leaves are packed upwards; at most `M` entries make a
root that is a leaf. -/
def packTree {B : Type} (expand : B → B → B) (before : B → B → Bool) (M : Nat)
    (vals : List (B × Nat)) : PackedTree B :=
  let sorted := vals.insertionSort (fun a b => before a.1 b.1 = true)
  if sorted.length ≤ M then { height := 0, root := sorted }
  else packUp expand M sorted.length 0 (packStep expand M sorted)

/-- Modelled from the spec: the bulk-loaded tree as a `SpatialTree`, for a box type with its
intersection test `hits`, its bounding-box expansion `expand`, the order `before` the loader
sorts by, and node capacity `M`. -/
def packedTree {B : Type} (hits : B → B → Bool) (expand : B → B → B) (before : B → B → Bool)
    (M : Nat) : SpatialTree B :=
  { Tree := PackedTree B
    empty := { height := 0, root := ([] : List (B × Nat)) }
    pack := packTree expand before M
    entries := fun t => Level.entries t.height t.root
    query := fun t w => Level.query hits t.height t.root w }

/-- Modelled from the spec: the bounding box of two 2D boxes, the smaller of the minima and
the larger of the maxima on every axis. -/
def box2d.expand {α : Type} [LinearOrder α] (a b : box2d α) : box2d α :=
  box2d.mk (point2d.mk (min a.min_corner.get0 b.min_corner.get0)
      (min a.min_corner.get1 b.min_corner.get1))
    (point2d.mk (max a.max_corner.get0 b.max_corner.get0)
      (max a.max_corner.get1 b.max_corner.get1))

/-- Modelled from the spec: the bounding box of two 3D boxes. -/
def box3d.expand {α : Type} [LinearOrder α] (a b : box3d α) : box3d α :=
  box3d.mk (point3d.mk (min a.min_corner.get0 b.min_corner.get0)
      (min a.min_corner.get1 b.min_corner.get1) (min a.min_corner.get2 b.min_corner.get2))
    (point3d.mk (max a.max_corner.get0 b.max_corner.get0)
      (max a.max_corner.get1 b.max_corner.get1) (max a.max_corner.get2 b.max_corner.get2))

/-- Modelled from the spec: the 2D tree type `pack_rtree2d` with node capacity `M`; the loader
sorts by the first coordinate of the minimum corner. -/
def pack_rtree2d (α : Type) [LinearOrder α] (M : Nat) : SpatialTree (box2d α) :=
  packedTree box2d.intersects box2d.expand
    (fun a b => decide (a.min_corner.get0 ≤ b.min_corner.get0)) M

/-- Modelled from the spec: the 3D tree type `pack_rtree3d` with node capacity `M`. -/
def pack_rtree3d (α : Type) [LinearOrder α] (M : Nat) : SpatialTree (box3d α) :=
  packedTree box3d.intersects box3d.expand
    (fun a b => decide (a.min_corner.get0 ≤ b.min_corner.get0)) M

/-- What the bulk loader needs of `expand`: the expanded box intersects every window that one
of the two boxes intersects. -/
structure ExpandCovers {B : Type} (hits : B → B → Bool) (expand : B → B → B) : Prop where
  left : ∀ a b w, hits a w = true → hits (expand a b) w = true
  right : ∀ a b w, hits b w = true → hits (expand a b) w = true

/-- The containment invariant of the tree: the bounding box stored with a child intersects
every window that an entry below the child intersects, at every level. -/
def Level.Covered {B : Type} (hits : B → B → Bool) : (h : Nat) → Level B h → Prop
  | 0, _ => True
  | h + 1, children =>
    ∀ c, List.Mem c children →
      (∀ e ∈ Level.entries h c.2, ∀ w, hits e.1 w = true → hits c.1 w = true)
        ∧ Level.Covered hits h c.2

/-! ## Sequences of calls and concrete inputs -/

/-- A sequence of `buildTree` calls on one index, each given as its `mbrs` and `dim`; the
statuses are dropped. -/
def runBuilds {α : Type} {R2 : SpatialTree (box2d α)} {R3 : SpatialTree (box3d α)}
    (s : MbrIndex R2 R3) (calls : List (List (Block α) × Int)) : MbrIndex R2 R3 :=
  calls.foldl (fun idx c => (idx.buildTree c.1 c.2).index) s

/-- The two entries of the spec's example: `(0,0)-(1,1)` at position 0 and `(2,2)-(3,3)` at
position 1, as blocks `[min_x, max_x, min_y, max_y]`. -/
def twoSquares : List (Block Int) :=
  [blockOf 0 [0, 1, 0, 1], blockOf 0 [2, 3, 2, 3]]

/-- Five 2D squares, enough for a tree of height 2 at node capacity 2. -/
def fiveSquares : List (Block Int) :=
  [blockOf 0 [0, 1, 0, 1], blockOf 0 [2, 3, 2, 3], blockOf 0 [5, 6, 5, 6],
    blockOf 0 [1, 2, 1, 2], blockOf 0 [-1, 0, -1, 0]]

/-- Three 3D cubes. -/
def threeCubes : List (Block Int) :=
  [blockOf 0 [0, 1, 0, 1, 0, 1], blockOf 0 [2, 3, 2, 3, 2, 3], blockOf 0 [1, 2, 1, 2, 7, 8]]

/-- A fresh index over the bulk-loaded trees with node capacity 2 and integer coordinates. -/
def freshIndex : MbrIndex (pack_rtree2d Int 2) (pack_rtree3d Int 2) :=
  MbrIndex.new (pack_rtree2d Int 2) (pack_rtree3d Int 2)

/-! ## The bulk-loaded tree meets the contract -/

theorem groups_flatMap {X : Type} (M : Nat) (l : List X) :
    List.flatMap (groups M l) (fun g => g.1 :: g.2) = l := by
  induction l with
  | nil => rfl
  | cons x xs ih =>
    simp only [groups]
    split
    · rename_i heq
      rw [heq] at ih
      simp at ih
      simp [← ih]
    · rename_i g gs heq
      rw [heq] at ih
      simp only [List.flatMap_cons] at ih
      split <;> simp [← ih]

theorem mem_of_mem_groups {X : Type} (M : Nat) (l : List X) (g : X × List X)
    (hg : g ∈ groups M l) (x : X) (hx : x ∈ g.1 :: g.2) : x ∈ l := by
  rw [← groups_flatMap M l]
  exact List.mem_flatMap.mpr ⟨g, hg, hx⟩

theorem boundsOf_covers {B : Type} {hits : B → B → Bool} {expand : B → B → B}
    (hc : ExpandCovers hits expand) (w : B) :
    ∀ (rest : List B) (first : B) (b : B), b ∈ first :: rest → hits b w = true →
      hits (boundsOf expand first rest) w = true := by
  intro rest
  induction rest with
  | nil =>
    intro first b hb hw
    simp at hb
    subst hb
    exact hw
  | cons r rest ih =>
    intro first b hb hw
    show hits (List.foldl expand (expand first r) rest) w = true
    rcases List.mem_cons.mp hb with h | h
    · subst h
      exact ih (expand b r) (expand b r) (List.mem_cons_self _ _) (hc.left _ _ _ hw)
    · rcases List.mem_cons.mp h with h | h
      · subst h
        exact ih (expand first b) (expand first b) (List.mem_cons_self _ _) (hc.right _ _ _ hw)
      · exact ih (expand first r) b (List.mem_cons_of_mem _ h) hw

theorem Level.query_eq_filter {B : Type} (hits : B → B → Bool) (w : B) :
    ∀ (h : Nat) (t : Level B h), Level.Covered hits h t →
      Level.query hits h t w = List.filter (fun v => hits v.1 w) (Level.entries h t) := by
  intro h
  induction h with
  | zero => intro t _; rfl
  | succ h ih =>
    have aux : ∀ cs : List (B × Level B h),
        (∀ c, c ∈ cs →
          (∀ e ∈ Level.entries h c.2, ∀ w, hits e.1 w = true → hits c.1 w = true)
            ∧ Level.Covered hits h c.2) →
        List.flatMap cs (fun c => if hits c.1 w then Level.query hits h c.2 w else [])
          = List.filter (fun v => hits v.1 w)
              (List.flatMap cs (fun c => Level.entries h c.2)) := by
      intro cs
      induction cs with
      | nil => intro _; rfl
      | cons c cs ihc =>
        intro ht2
        have hc := ht2 c (List.mem_cons_self _ _)
        have hrest := ihc (fun c2 h2 => ht2 c2 (List.mem_cons_of_mem _ h2))
        simp only [List.flatMap_cons, List.filter_append]
        rw [hrest]
        congr 1
        by_cases hw : hits c.1 w = true
        · rw [if_pos hw]
          exact ih c.2 hc.2
        · rw [if_neg hw]
          symm
          rw [List.filter_eq_nil_iff]
          intro e he hew
          exact hw (hc.1 e he w hew)
    intro t ht
    exact aux t ht

theorem packStep_entries {B X : Type} (expand : B → B → B) (M : Nat) (nodes : List (B × X))
    (f : B × X → List (B × Nat)) :
    List.flatMap (packStep expand M nodes) (fun c => List.flatMap c.2 f)
      = List.flatMap nodes f := by
  have h := congrArg (fun l => List.flatMap l f) (groups_flatMap M nodes)
  simp only [List.flatMap_assoc] at h
  rw [← h]
  simp [packStep, List.flatMap_map]

theorem packStep_mem {B X : Type} (expand : B → B → B) (M : Nat) (nodes : List (B × X))
    (c : B × List (B × X)) (hc : c ∈ packStep expand M nodes) :
    (∀ n ∈ c.2, n ∈ nodes) ∧
      ∃ first rest, first :: rest = c.2.map Prod.fst ∧ c.1 = boundsOf expand first rest := by
  simp only [packStep, List.mem_map] at hc
  obtain ⟨g, hg, rfl⟩ := hc
  exact ⟨fun n hn => mem_of_mem_groups M nodes g hg n hn, g.1.1, g.2.map Prod.fst, by simp, rfl⟩

theorem packStep_flatten {B X : Type} (expand : B → B → B) (M : Nat) (nodes : List (B × X)) :
    List.flatMap (packStep expand M nodes) (fun c => c.2) = nodes := by
  have h := groups_flatMap M nodes
  rw [← h]
  simp [packStep, List.flatMap_map, h]

theorem packStep_covers {B X : Type} {hits : B → B → Bool} {expand : B → B → B}
    (hc : ExpandCovers hits expand) (M : Nat) (nodes : List (B × X))
    (c : B × List (B × X)) (hmem : c ∈ packStep expand M nodes) (n : B × X) (hn : n ∈ c.2)
    (w : B) (hw : hits n.1 w = true) : hits c.1 w = true := by
  obtain ⟨_, first, rest, hfr, hb⟩ := packStep_mem expand M nodes c hmem
  rw [hb]
  refine boundsOf_covers hc w rest first n.1 ?_ hw
  rw [hfr]
  exact List.mem_map_of_mem _ hn

theorem packStep_covered_leaves {B : Type} {hits : B → B → Bool} {expand : B → B → B}
    (hc : ExpandCovers hits expand) (M : Nat) (vals : List (B × Nat)) :
    Level.Covered hits 1 (packStep expand M vals) := by
  intro c hmem
  refine ⟨?_, trivial⟩
  intro e he w hw
  exact packStep_covers hc M vals c hmem e he w hw

theorem packStep_covered {B : Type} {hits : B → B → Bool} {expand : B → B → B}
    (hc : ExpandCovers hits expand) (M : Nat) (h : Nat) (nodes : List (B × Level B h))
    (hcov : Level.Covered hits (h + 1) nodes) :
    Level.Covered hits (h + 2) (packStep expand M nodes) := by
  intro c hmem
  have hsub := (packStep_mem expand M nodes c hmem).1
  refine ⟨?_, ?_⟩
  · intro e he w hw
    obtain ⟨n, hn, hen⟩ := List.mem_flatMap.mp he
    exact packStep_covers hc M nodes c hmem n hn w ((hcov n (hsub n hn)).1 e hen w hw)
  · intro n hn
    exact hcov n (hsub n hn)

theorem packUp_entries {B : Type} (expand : B → B → B) (M : Nat) :
    ∀ (fuel h : Nat) (nodes : List (B × Level B h)),
      Level.entries (packUp expand M fuel h nodes).height (packUp expand M fuel h nodes).root
        = Level.entries (h + 1) nodes := by
  intro fuel
  induction fuel with
  | zero => intro h nodes; rfl
  | succ fuel ih =>
    intro h nodes
    by_cases hle : nodes.length ≤ M
    · have e : packUp expand M (fuel + 1) h nodes = { height := h + 1, root := nodes } := by
        simp [packUp, hle]
      rw [e]
    · have e : packUp expand M (fuel + 1) h nodes
          = packUp expand M fuel (h + 1) (packStep expand M nodes) := by
        simp [packUp, hle]
      rw [e, ih (h + 1) (packStep expand M nodes)]
      exact packStep_entries expand M nodes (fun n => Level.entries h n.2)

theorem packUp_covered {B : Type} {hits : B → B → Bool} {expand : B → B → B}
    (hc : ExpandCovers hits expand) (M : Nat) :
    ∀ (fuel h : Nat) (nodes : List (B × Level B h)), Level.Covered hits (h + 1) nodes →
      Level.Covered hits (packUp expand M fuel h nodes).height
        (packUp expand M fuel h nodes).root := by
  intro fuel
  induction fuel with
  | zero => intro h nodes hcov; exact hcov
  | succ fuel ih =>
    intro h nodes hcov
    by_cases hle : nodes.length ≤ M
    · have e : packUp expand M (fuel + 1) h nodes = { height := h + 1, root := nodes } := by
        simp [packUp, hle]
      rw [e]
      exact hcov
    · have e : packUp expand M (fuel + 1) h nodes
          = packUp expand M fuel (h + 1) (packStep expand M nodes) := by
        simp [packUp, hle]
      rw [e]
      exact ih (h + 1) (packStep expand M nodes) (packStep_covered hc M h nodes hcov)

theorem packTree_entries {B : Type} (expand : B → B → B) (before : B → B → Bool) (M : Nat)
    (vals : List (B × Nat)) :
    Level.entries (packTree expand before M vals).height (packTree expand before M vals).root
      = vals.insertionSort (fun a b => before a.1 b.1 = true) := by
  by_cases hle : (vals.insertionSort (fun a b => before a.1 b.1 = true)).length ≤ M
  · have e : packTree expand before M vals
        = { height := 0, root := vals.insertionSort (fun a b => before a.1 b.1 = true) } := by
      unfold packTree
      exact if_pos hle
    rw [e]
    rfl
  · have e : packTree expand before M vals
        = packUp expand M (vals.insertionSort (fun a b => before a.1 b.1 = true)).length 0
            (packStep expand M (vals.insertionSort (fun a b => before a.1 b.1 = true))) := by
      unfold packTree
      exact if_neg hle
    rw [e, packUp_entries]
    exact packStep_flatten expand M _

theorem packTree_covered {B : Type} {hits : B → B → Bool} {expand : B → B → B}
    (hc : ExpandCovers hits expand) (before : B → B → Bool) (M : Nat) (vals : List (B × Nat)) :
    Level.Covered hits (packTree expand before M vals).height
      (packTree expand before M vals).root := by
  by_cases hle : (vals.insertionSort (fun a b => before a.1 b.1 = true)).length ≤ M
  · have e : packTree expand before M vals
        = { height := 0, root := vals.insertionSort (fun a b => before a.1 b.1 = true) } := by
      unfold packTree
      exact if_pos hle
    rw [e]
    trivial
  · have e : packTree expand before M vals
        = packUp expand M (vals.insertionSort (fun a b => before a.1 b.1 = true)).length 0
            (packStep expand M (vals.insertionSort (fun a b => before a.1 b.1 = true))) := by
      unfold packTree
      exact if_neg hle
    rw [e]
    exact packUp_covered hc M _ 0 _ (packStep_covered_leaves hc M _)

/-- The bulk-loaded tree meets the contract `SpatialTree.Lawful`, for every node capacity and
every sort order, as soon as `expand` covers both of its arguments. -/
theorem packedTree_lawful {B : Type} {hits : B → B → Bool} {expand : B → B → B}
    (hc : ExpandCovers hits expand) (before : B → B → Bool) (M : Nat) :
    SpatialTree.Lawful hits (packedTree hits expand before M) where
  entries_empty := rfl
  entries_pack := by
    intro l
    show (Level.entries (packTree expand before M l).height
      (packTree expand before M l).root).Perm l
    rw [packTree_entries]
    exact List.perm_insertionSort _ l
  query_pack := by
    intro l w
    show (Level.query hits (packTree expand before M l).height
      (packTree expand before M l).root w).Perm _
    rw [Level.query_eq_filter hits w _ _ (packTree_covered hc before M l), packTree_entries]
    exact (List.perm_insertionSort _ l).filter _

theorem box2d_expandCovers {α : Type} [LinearOrder α] :
    ExpandCovers (box2d.intersects : box2d α → box2d α → Bool) box2d.expand where
  left := by
    intro a b w h
    simp only [box2d.intersects, box2d.expand, Bool.and_eq_true, decide_eq_true_eq] at h ⊢
    obtain ⟨⟨⟨h1, h2⟩, h3⟩, h4⟩ := h
    exact ⟨⟨⟨(min_le_left _ _).trans h1, h2.trans (le_max_left _ _)⟩,
      (min_le_left _ _).trans h3⟩, h4.trans (le_max_left _ _)⟩
  right := by
    intro a b w h
    simp only [box2d.intersects, box2d.expand, Bool.and_eq_true, decide_eq_true_eq] at h ⊢
    obtain ⟨⟨⟨h1, h2⟩, h3⟩, h4⟩ := h
    exact ⟨⟨⟨(min_le_right _ _).trans h1, h2.trans (le_max_right _ _)⟩,
      (min_le_right _ _).trans h3⟩, h4.trans (le_max_right _ _)⟩

theorem box3d_expandCovers {α : Type} [LinearOrder α] :
    ExpandCovers (box3d.intersects : box3d α → box3d α → Bool) box3d.expand where
  left := by
    intro a b w h
    simp only [box3d.intersects, box3d.expand, Bool.and_eq_true, decide_eq_true_eq] at h ⊢
    obtain ⟨⟨⟨⟨⟨h1, h2⟩, h3⟩, h4⟩, h5⟩, h6⟩ := h
    exact ⟨⟨⟨⟨⟨(min_le_left _ _).trans h1, h2.trans (le_max_left _ _)⟩,
      (min_le_left _ _).trans h3⟩, h4.trans (le_max_left _ _)⟩,
      (min_le_left _ _).trans h5⟩, h6.trans (le_max_left _ _)⟩
  right := by
    intro a b w h
    simp only [box3d.intersects, box3d.expand, Bool.and_eq_true, decide_eq_true_eq] at h ⊢
    obtain ⟨⟨⟨⟨⟨h1, h2⟩, h3⟩, h4⟩, h5⟩, h6⟩ := h
    exact ⟨⟨⟨⟨⟨(min_le_right _ _).trans h1, h2.trans (le_max_right _ _)⟩,
      (min_le_right _ _).trans h3⟩, h4.trans (le_max_right _ _)⟩,
      (min_le_right _ _).trans h5⟩, h6.trans (le_max_right _ _)⟩

/-- The 2D tree `pack_rtree2d` meets the contract, for every node capacity. -/
theorem pack_rtree2d_lawful (α : Type) [LinearOrder α] (M : Nat) :
    SpatialTree.Lawful box2d.intersects (pack_rtree2d α M) :=
  packedTree_lawful box2d_expandCovers _ M

/-- The 3D tree `pack_rtree3d` meets the contract, for every node capacity. -/
theorem pack_rtree3d_lawful (α : Type) [LinearOrder α] (M : Nat) :
    SpatialTree.Lawful box3d.intersects (pack_rtree3d α M) :=
  packedTree_lawful box3d_expandCovers _ M

/-! ## Facts about the index, shared by the claims -/

/-- Every sorting algorithm returns `sortResult`: a non-decreasing rearrangement of a list of
integers is unique. -/
theorem sortResult_unique (l sorted : List Int) (hp : sorted.Perm l)
    (hs : sorted.Sorted (fun a b => a ≤ b)) : sorted = sortResult l :=
  List.eq_of_perm_of_sorted (hp.trans (List.perm_insertionSort _ l).symm) hs
    (List.sorted_insertionSort _ l)

theorem sortResult_perm (l : List Int) : (sortResult l).Perm l :=
  List.perm_insertionSort _ l

theorem sortResult_sorted (l : List Int) : (sortResult l).Sorted (fun a b => a ≤ b) :=
  List.sorted_insertionSort _ l

theorem sortResult_congr {l₁ l₂ : List Int} (hp : l₁.Perm l₂) : sortResult l₁ = sortResult l₂ :=
  sortResult_unique l₂ (sortResult l₁) ((sortResult_perm l₁).trans hp) (sortResult_sorted l₁)

theorem sortResult_of_sorted {l : List Int} (hs : l.Sorted (fun a b => a < b)) :
    sortResult l = l :=
  (sortResult_unique l l (List.Perm.refl l) (hs.imp (fun h => le_of_lt h))).symm

theorem axisOverlap_two {α : Type} [LinearOrder α] (e w : Block α) :
    axisOverlap 2 e w ↔ (e 0 ≤ w 1 ∧ w 0 ≤ e 1) ∧ (e 2 ≤ w 3 ∧ w 2 ≤ e 3) := by
  constructor
  · intro h
    exact ⟨h 0 (by omega), h 1 (by omega)⟩
  · rintro ⟨h0, h1⟩ k hk
    interval_cases k
    · exact h0
    · exact h1

theorem axisOverlap_three {α : Type} [LinearOrder α] (e w : Block α) :
    axisOverlap 3 e w ↔
      (e 0 ≤ w 1 ∧ w 0 ≤ e 1) ∧ (e 2 ≤ w 3 ∧ w 2 ≤ e 3) ∧ (e 4 ≤ w 5 ∧ w 4 ≤ e 5) := by
  constructor
  · intro h
    exact ⟨h 0 (by omega), h 1 (by omega), h 2 (by omega)⟩
  · rintro ⟨h0, h1, h2⟩ k hk
    interval_cases k
    · exact h0
    · exact h1
    · exact h2

theorem intersects_mkBox2d {α : Type} [LinearOrder α] (e w : Block α) :
    box2d.intersects (mkBox2d e) (mkBox2d w) = true ↔ axisOverlap 2 e w := by
  rw [axisOverlap_two]
  simp only [box2d.intersects, mkBox2d, Bool.and_eq_true, decide_eq_true_eq]
  tauto

theorem intersects_mkBox3d {α : Type} [LinearOrder α] (e w : Block α) :
    box3d.intersects (mkBox3d e) (mkBox3d w) = true ↔ axisOverlap 3 e w := by
  rw [axisOverlap_three]
  simp only [box3d.intersects, mkBox3d, Bool.and_eq_true, decide_eq_true_eq]
  tauto

theorem mem_pairs2d {α : Type} (mbrs : List (Block α)) :
    ∀ (i : Nat) (v : value2d α),
      v ∈ pairs2d i mbrs ↔ ∃ k, ∃ h : k < mbrs.length, v = (mkBox2d mbrs[k], i + k) := by
  induction mbrs with
  | nil => intro i v; simp [pairs2d]
  | cons m rest ih =>
    intro i v
    simp only [pairs2d, List.mem_cons, ih, List.length_cons]
    constructor
    · rintro (h | ⟨k, hk, h⟩)
      · exact ⟨0, by omega, by simpa using h⟩
      · exact ⟨k + 1, by omega, by simpa [Nat.add_assoc, Nat.add_comm 1 k] using h⟩
    · rintro ⟨k, hk, h⟩
      cases k with
      | zero => left; simpa using h
      | succ k =>
        right
        exact ⟨k, by omega, by simpa [Nat.add_assoc, Nat.add_comm 1 k] using h⟩

theorem mem_pairs3d {α : Type} (mbrs : List (Block α)) :
    ∀ (i : Nat) (v : value3d α),
      v ∈ pairs3d i mbrs ↔ ∃ k, ∃ h : k < mbrs.length, v = (mkBox3d mbrs[k], i + k) := by
  induction mbrs with
  | nil => intro i v; simp [pairs3d]
  | cons m rest ih =>
    intro i v
    simp only [pairs3d, List.mem_cons, ih, List.length_cons]
    constructor
    · rintro (h | ⟨k, hk, h⟩)
      · exact ⟨0, by omega, by simpa using h⟩
      · exact ⟨k + 1, by omega, by simpa [Nat.add_assoc, Nat.add_comm 1 k] using h⟩
    · rintro ⟨k, hk, h⟩
      cases k with
      | zero => left; simpa using h
      | succ k =>
        right
        exact ⟨k, by omega, by simpa [Nat.add_assoc, Nat.add_comm 1 k] using h⟩

theorem pairs2d_ascending {α : Type} (mbrs : List (Block α)) :
    ∀ i : Nat, (pairs2d i mbrs).Pairwise (fun a b => a.2 < b.2) := by
  induction mbrs with
  | nil => intro i; exact List.Pairwise.nil
  | cons m rest ih =>
    intro i
    refine List.Pairwise.cons ?_ (ih (i + 1))
    intro b hb
    obtain ⟨k, _, rfl⟩ := (mem_pairs2d rest (i + 1) b).mp hb
    show i < i + 1 + k
    omega

theorem pairs3d_ascending {α : Type} (mbrs : List (Block α)) :
    ∀ i : Nat, (pairs3d i mbrs).Pairwise (fun a b => a.2 < b.2) := by
  induction mbrs with
  | nil => intro i; exact List.Pairwise.nil
  | cons m rest ih =>
    intro i
    refine List.Pairwise.cons ?_ (ih (i + 1))
    intro b hb
    obtain ⟨k, _, rfl⟩ := (mem_pairs3d rest (i + 1) b).mp hb
    show i < i + 1 + k
    omega

theorem mem_bruteForce {α : Type} [LinearOrder α] (d : Nat) (mbrs : List (Block α))
    (w : Block α) (z : Int) :
    z ∈ bruteForce d mbrs w ↔
      ∃ k, ∃ h : k < mbrs.length, z = (k : Int) ∧ axisOverlap d mbrs[k] w := by
  simp only [bruteForce, List.mem_map, List.mem_filter, List.mem_range]
  constructor
  · rintro ⟨k, ⟨hk, hov⟩, rfl⟩
    refine ⟨k, hk, rfl, ?_⟩
    rw [List.getElem?_eq_getElem hk] at hov
    simpa using hov
  · rintro ⟨k, hk, rfl, hov⟩
    refine ⟨k, ⟨hk, ?_⟩, rfl⟩
    rw [List.getElem?_eq_getElem hk]
    simpa using hov

theorem bruteForce_sorted {α : Type} [LinearOrder α] (d : Nat) (mbrs : List (Block α))
    (w : Block α) : (bruteForce d mbrs w).Sorted (fun a b => a < b) := by
  unfold bruteForce
  refine List.Pairwise.map _ ?_ ((List.sorted_lt_range mbrs.length).filter _)
  intro a b hab
  exact Int.ofNat_lt.mpr hab

/-- The identities of the 2D pairs that intersect the window, in the order of the build
loop. -/
theorem matches2d_eq_bruteForce {α : Type} [LinearOrder α] (mbrs : List (Block α))
    (w : Block α) :
    ((pairs2d 0 mbrs).filter (fun v => box2d.intersects v.1 (mkBox2d w))).map
      (fun c => (c.2 : Int)) = bruteForce 2 mbrs w := by
  have hs : (((pairs2d 0 mbrs).filter (fun v => box2d.intersects v.1 (mkBox2d w))).map
      (fun c => (c.2 : Int))).Sorted (fun a b => a < b) := by
    refine List.Pairwise.map _ ?_ ((pairs2d_ascending mbrs 0).filter _)
    intro a b hab
    exact Int.ofNat_lt.mpr hab
  have hb := bruteForce_sorted 2 mbrs w
  refine List.eq_of_perm_of_sorted ?_ hs hb
  rw [List.perm_ext_iff_of_nodup hs.nodup hb.nodup]
  intro z
  rw [mem_bruteForce]
  simp only [List.mem_map, List.mem_filter, mem_pairs2d]
  constructor
  · rintro ⟨v, ⟨⟨k, hk, rfl⟩, hv⟩, rfl⟩
    exact ⟨k, hk, by simp, (intersects_mkBox2d _ _).mp hv⟩
  · rintro ⟨k, hk, rfl, hov⟩
    exact ⟨(mkBox2d mbrs[k], 0 + k), ⟨⟨k, hk, rfl⟩, (intersects_mkBox2d _ _).mpr hov⟩, by simp⟩

/-- The identities of the 3D pairs that intersect the window, in the order of the build
loop. -/
theorem matches3d_eq_bruteForce {α : Type} [LinearOrder α] (mbrs : List (Block α))
    (w : Block α) :
    ((pairs3d 0 mbrs).filter (fun v => box3d.intersects v.1 (mkBox3d w))).map
      (fun c => (c.2 : Int)) = bruteForce 3 mbrs w := by
  have hs : (((pairs3d 0 mbrs).filter (fun v => box3d.intersects v.1 (mkBox3d w))).map
      (fun c => (c.2 : Int))).Sorted (fun a b => a < b) := by
    refine List.Pairwise.map _ ?_ ((pairs3d_ascending mbrs 0).filter _)
    intro a b hab
    exact Int.ofNat_lt.mpr hab
  have hb := bruteForce_sorted 3 mbrs w
  refine List.eq_of_perm_of_sorted ?_ hs hb
  rw [List.perm_ext_iff_of_nodup hs.nodup hb.nodup]
  intro z
  rw [mem_bruteForce]
  simp only [List.mem_map, List.mem_filter, mem_pairs3d]
  constructor
  · rintro ⟨v, ⟨⟨k, hk, rfl⟩, hv⟩, rfl⟩
    exact ⟨k, hk, by simp, (intersects_mkBox3d _ _).mp hv⟩
  · rintro ⟨k, hk, rfl, hov⟩
    exact ⟨(mkBox3d mbrs[k], 0 + k), ⟨⟨k, hk, rfl⟩, (intersects_mkBox3d _ _).mpr hov⟩, by simp⟩

/-- After `buildTree(mbrs, 2)` on any index, `intersectQuery` succeeds, returns the index as
it is, and leaves the caller's vector sorted with the brute-force matches appended. -/
theorem query_after_build2d {α : Type} [LinearOrder α] {R2 : SpatialTree (box2d α)}
    {R3 : SpatialTree (box3d α)} (h2 : SpatialTree.Lawful box2d.intersects R2)
    (s : MbrIndex R2 R3) (mbrs : List (Block α)) (w : Block α) (r0 : List Int) :
    (s.buildTree mbrs 2).status = TILEDB_MI_OK ∧
      (s.buildTree mbrs 2).index.intersectQuery w r0 =
        { status := TILEDB_MI_OK
          result := sortResult (r0 ++ bruteForce 2 mbrs w)
          index := (s.buildTree mbrs 2).index } := by
  refine ⟨rfl, ?_⟩
  have hp := ((h2.query_pack (pairs2d 0 mbrs) (mkBox2d w)).map (fun c => (c.2 : Int)))
  rw [matches2d_eq_bruteForce] at hp
  simp only [MbrIndex.buildTree, MbrIndex.build2d, MbrIndex.intersectQuery,
    MbrIndex.intersect2d, if_true]
  congr 1
  exact sortResult_congr (hp.append_left r0)

/-- After `buildTree(mbrs, 3)` on any index, `intersectQuery` succeeds, returns the index as
it is, and leaves the caller's vector sorted with the brute-force matches appended. -/
theorem query_after_build3d {α : Type} [LinearOrder α] {R2 : SpatialTree (box2d α)}
    {R3 : SpatialTree (box3d α)} (h3 : SpatialTree.Lawful box3d.intersects R3)
    (s : MbrIndex R2 R3) (mbrs : List (Block α)) (w : Block α) (r0 : List Int) :
    (s.buildTree mbrs 3).status = TILEDB_MI_OK ∧
      (s.buildTree mbrs 3).index.intersectQuery w r0 =
        { status := TILEDB_MI_OK
          result := sortResult (r0 ++ bruteForce 3 mbrs w)
          index := (s.buildTree mbrs 3).index } := by
  refine ⟨rfl, ?_⟩
  have hp := ((h3.query_pack (pairs3d 0 mbrs) (mkBox3d w)).map (fun c => (c.2 : Int)))
  rw [matches3d_eq_bruteForce] at hp
  simp only [MbrIndex.buildTree, MbrIndex.build3d, MbrIndex.intersectQuery,
    MbrIndex.intersect3d]
  simp only [show ((3 : Int) = 2) = False from by decide, if_false, if_true]
  congr 1
  exact sortResult_congr (hp.append_left r0)

/-- The two dimensions at once. -/
theorem query_after_build {α : Type} [LinearOrder α] {R2 : SpatialTree (box2d α)}
    {R3 : SpatialTree (box3d α)} (h2 : SpatialTree.Lawful box2d.intersects R2)
    (h3 : SpatialTree.Lawful box3d.intersects R3) (d : Nat) (hd : d = 2 ∨ d = 3)
    (s : MbrIndex R2 R3) (mbrs : List (Block α)) (w : Block α) (r0 : List Int) :
    (s.buildTree mbrs (d : Int)).status = TILEDB_MI_OK ∧
      (s.buildTree mbrs (d : Int)).index.intersectQuery w r0 =
        { status := TILEDB_MI_OK
          result := sortResult (r0 ++ bruteForce d mbrs w)
          index := (s.buildTree mbrs (d : Int)).index } := by
  rcases hd with rfl | rfl
  · exact query_after_build2d h2 s mbrs w r0
  · exact query_after_build3d h3 s mbrs w r0

/-! ## The claims -/

/-- C1: for `d` in {2, 3}, every list `mbrs` of blocks and every window, `buildTree(mbrs, d)`
on a fresh index succeeds, and `intersectQuery` called with an empty result succeeds and
leaves in `result` the brute-force answer: the ascending list of exactly the positions `i`
whose block axis-overlaps the window on every axis. For the empty list the result is empty. -/
theorem C1_query_is_brute_force {α : Type} [LinearOrder α] {R2 : SpatialTree (box2d α)}
    {R3 : SpatialTree (box3d α)} (h2 : SpatialTree.Lawful box2d.intersects R2)
    (h3 : SpatialTree.Lawful box3d.intersects R3) (d : Nat) (hd : d = 2 ∨ d = 3)
    (mbrs : List (Block α)) (window : Block α) :
    ((MbrIndex.new R2 R3).buildTree mbrs (d : Int)).status = TILEDB_MI_OK ∧
      (((MbrIndex.new R2 R3).buildTree mbrs (d : Int)).index.intersectQuery window []).status
        = TILEDB_MI_OK ∧
      (((MbrIndex.new R2 R3).buildTree mbrs (d : Int)).index.intersectQuery window []).result
        = bruteForce d mbrs window ∧
      (bruteForce d mbrs window).Sorted (fun a b => a < b) ∧
      (∀ z : Int, z ∈ bruteForce d mbrs window ↔
        ∃ i, ∃ h : i < mbrs.length, z = (i : Int) ∧ axisOverlap d mbrs[i] window) ∧
      (mbrs = [] →
        (((MbrIndex.new R2 R3).buildTree mbrs (d : Int)).index.intersectQuery window []).result
          = []) := by
  obtain ⟨hb, hq⟩ := query_after_build h2 h3 d hd (MbrIndex.new R2 R3) mbrs window []
  have hr : (((MbrIndex.new R2 R3).buildTree mbrs (d : Int)).index.intersectQuery window
      []).result = bruteForce d mbrs window := by
    rw [hq]
    exact sortResult_of_sorted (bruteForce_sorted d mbrs window)
  refine ⟨hb, ?_, hr, bruteForce_sorted d mbrs window, mem_bruteForce d mbrs window, ?_⟩
  · rw [hq]
  · intro he
    rw [hr, he]
    rfl

/-- C1 at a concrete input: five squares in a 2D tree of height 2, and three cubes in a 3D
tree. -/
theorem C1_query_is_brute_force_witness :
    ((2 : Nat) = 2 ∨ (2 : Nat) = 3) ∧
      ((freshIndex.buildTree fiveSquares ((2 : Nat) : Int)).index.intersectQuery
        (blockOf 0 [1, 2, 1, 2]) []).result = [0, 1, 3] ∧
      bruteForce 2 fiveSquares (blockOf 0 [1, 2, 1, 2]) = [0, 1, 3] ∧
      ((3 : Nat) = 2 ∨ (3 : Nat) = 3) ∧
      ((freshIndex.buildTree threeCubes ((3 : Nat) : Int)).index.intersectQuery
        (blockOf 0 [1, 2, 1, 2, 5, 9]) []).result = [2] :=
  ⟨Or.inl rfl,
    ((C1_query_is_brute_force (pack_rtree2d_lawful Int 2) (pack_rtree3d_lawful Int 2) 2
      (Or.inl rfl) fiveSquares (blockOf 0 [1, 2, 1, 2])).2.2.1).trans (by decide),
    by decide, Or.inr rfl,
    ((C1_query_is_brute_force (pack_rtree2d_lawful Int 2) (pack_rtree3d_lawful Int 2) 3
      (Or.inr rfl) threeCubes (blockOf 0 [1, 2, 1, 2, 5, 9])).2.2.1).trans (by decide)⟩

/-- C2, as amended: for every index built with dim 2 or 3 (from any prior state and any list
of blocks) and every window, `intersectQuery` called with a result vector that is empty on
entry leaves a strictly ascending, duplicate-free sequence; whatever the vector held on
entry, it comes back in non-decreasing order. -/
theorem C2_ascending_from_empty_result {α : Type} [LinearOrder α]
    {R2 : SpatialTree (box2d α)} {R3 : SpatialTree (box3d α)}
    (h2 : SpatialTree.Lawful box2d.intersects R2) (h3 : SpatialTree.Lawful box3d.intersects R3)
    (d : Nat) (hd : d = 2 ∨ d = 3) (s : MbrIndex R2 R3) (mbrs : List (Block α))
    (window : Block α) :
    ((s.buildTree mbrs (d : Int)).index.intersectQuery window []).status = TILEDB_MI_OK ∧
      ((s.buildTree mbrs (d : Int)).index.intersectQuery window []).result.Sorted
        (fun a b => a < b) ∧
      ((s.buildTree mbrs (d : Int)).index.intersectQuery window []).result.Nodup ∧
      ∀ r0 : List Int,
        ((s.buildTree mbrs (d : Int)).index.intersectQuery window r0).result.Sorted
          (fun a b => a ≤ b) := by
  have hq := fun r0 => (query_after_build h2 h3 d hd s mbrs window r0).2
  have hs : ((s.buildTree mbrs (d : Int)).index.intersectQuery window []).result.Sorted
      (fun a b => a < b) := by
    rw [hq []]
    show (sortResult ([] ++ bruteForce d mbrs window)).Sorted (fun a b => a < b)
    rw [List.nil_append, sortResult_of_sorted (bruteForce_sorted d mbrs window)]
    exact bruteForce_sorted d mbrs window
  refine ⟨?_, hs, hs.nodup, ?_⟩
  · rw [hq []]
  · intro r0
    rw [hq r0]
    exact sortResult_sorted _

/-- C2 at a concrete input. -/
theorem C2_ascending_from_empty_result_witness :
    ((2 : Nat) = 2 ∨ (2 : Nat) = 3) ∧
      ((freshIndex.buildTree fiveSquares ((2 : Nat) : Int)).index.intersectQuery
        (blockOf 0 [1, 2, 1, 2]) []).result.Sorted (fun a b => a < b) :=
  ⟨Or.inl rfl,
    (C2_ascending_from_empty_result (pack_rtree2d_lawful Int 2) (pack_rtree3d_lawful Int 2) 2
      (Or.inl rfl) freshIndex fiveSquares (blockOf 0 [1, 2, 1, 2])).2.1⟩

/-- C2 as stated fails: a 2D index built from the single square `(0,0)-(1,1)`, queried with
that square as the window and with a result vector that already holds `0`, returns `[0, 0]`,
which is not strictly ascending and holds a duplicate. -/
theorem C2_counterexample :
    ((freshIndex.buildTree [blockOf 0 [0, 1, 0, 1]] 2).index.intersectQuery
        (blockOf 0 [0, 1, 0, 1]) [0]).status = TILEDB_MI_OK ∧
      ((freshIndex.buildTree [blockOf 0 [0, 1, 0, 1]] 2).index.intersectQuery
        (blockOf 0 [0, 1, 0, 1]) [0]).result = [0, 0] ∧
      ¬ ((freshIndex.buildTree [blockOf 0 [0, 1, 0, 1]] 2).index.intersectQuery
        (blockOf 0 [0, 1, 0, 1]) [0]).result.Sorted (fun a b => a < b) ∧
      ¬ ((freshIndex.buildTree [blockOf 0 [0, 1, 0, 1]] 2).index.intersectQuery
        (blockOf 0 [0, 1, 0, 1]) [0]).result.Nodup := by
  decide

/-- C3: for every `dim` other than 2 and 3, every list of blocks and every prior index state,
`buildTree` returns the error status and the index it leaves is the index it was given; a
fresh index keeps `dim_num_ = 0`, and every query is answered as before the call. -/
theorem C3_unsupported_dimension {α : Type} {R2 : SpatialTree (box2d α)}
    {R3 : SpatialTree (box3d α)} (s : MbrIndex R2 R3) (mbrs : List (Block α)) (dim : Int)
    (hn2 : dim ≠ 2) (hn3 : dim ≠ 3) :
    (s.buildTree mbrs dim).status = TILEDB_MI_ERR ∧
      TILEDB_MI_ERR ≠ TILEDB_MI_OK ∧
      (s.buildTree mbrs dim).index = s ∧
      ((MbrIndex.new R2 R3).buildTree mbrs dim).index.dim_num_ = 0 ∧
      ∀ (window : Block α) (r0 : List Int),
        (s.buildTree mbrs dim).index.intersectQuery window r0 = s.intersectQuery window r0 := by
  have h : s.buildTree mbrs dim = { status := TILEDB_MI_ERR, index := s } := by
    simp [MbrIndex.buildTree, hn2, hn3]
  have hnew : (MbrIndex.new R2 R3).buildTree mbrs dim
      = { status := TILEDB_MI_ERR, index := MbrIndex.new R2 R3 } := by
    simp [MbrIndex.buildTree, hn2, hn3]
  refine ⟨by rw [h], by decide, by rw [h], by rw [hnew]; rfl, ?_⟩
  intro window r0
  rw [h]

/-- C3 at a concrete input: `buildTree(_, 4)` on an index that holds five squares. -/
theorem C3_unsupported_dimension_witness :
    (4 : Int) ≠ 2 ∧ (4 : Int) ≠ 3 ∧
      (((freshIndex.buildTree fiveSquares 2).index.buildTree twoSquares 4).status
        = TILEDB_MI_ERR) ∧
      (((freshIndex.buildTree fiveSquares 2).index.buildTree twoSquares 4).index.intersectQuery
        (blockOf 0 [1, 2, 1, 2]) []).result = [0, 1, 3] :=
  ⟨by decide, by decide,
    (C3_unsupported_dimension (freshIndex.buildTree fiveSquares 2).index twoSquares 4
      (by decide) (by decide)).1,
    by decide⟩

/-- C4: on an index that was constructed and has since seen only `buildTree` calls with a
`dim` other than 2 and 3, the stored dimensionality is 0 and `intersectQuery` returns the
error status, the result vector as it was on entry and the index as it was on entry. -/
theorem C4_query_on_empty_index {α : Type} {R2 : SpatialTree (box2d α)}
    {R3 : SpatialTree (box3d α)} (calls : List (List (Block α) × Int))
    (hcalls : ∀ c ∈ calls, c.2 ≠ 2 ∧ c.2 ≠ 3) (window : Block α) (r0 : List Int) :
    (runBuilds (MbrIndex.new R2 R3) calls).dim_num_ = 0 ∧
      (runBuilds (MbrIndex.new R2 R3) calls).intersectQuery window r0 =
        { status := TILEDB_MI_ERR
          result := r0
          index := runBuilds (MbrIndex.new R2 R3) calls } ∧
      TILEDB_MI_ERR ≠ TILEDB_MI_OK ∧
      (r0 = [] → ((runBuilds (MbrIndex.new R2 R3) calls).intersectQuery window r0).result = [])
    := by
  have hrun : runBuilds (MbrIndex.new R2 R3) calls = MbrIndex.new R2 R3 := by
    unfold runBuilds
    generalize MbrIndex.new R2 R3 = s
    induction calls with
    | nil => rfl
    | cons c cs ih =>
      have hc := hcalls c (List.mem_cons_self _ _)
      have hstep : (s.buildTree c.1 c.2).index = s := by
        simp [MbrIndex.buildTree, hc.1, hc.2]
      rw [List.foldl_cons, hstep]
      exact ih (fun c2 h2 => hcalls c2 (List.mem_cons_of_mem _ h2))
  have hq : (MbrIndex.new R2 R3).intersectQuery window r0 =
      { status := TILEDB_MI_ERR, result := r0, index := MbrIndex.new R2 R3 } := by
    simp [MbrIndex.intersectQuery, MbrIndex.new]
  rw [hrun]
  refine ⟨rfl, hq, by decide, ?_⟩
  intro he
  rw [hq]
  exact he

/-- C4 at a concrete input: a fresh index after two refused builds. -/
theorem C4_query_on_empty_index_witness :
    (∀ c ∈ [(fiveSquares, (4 : Int)), (twoSquares, (0 : Int))], c.2 ≠ 2 ∧ c.2 ≠ 3) ∧
      ((runBuilds freshIndex [(fiveSquares, 4), (twoSquares, 0)]).intersectQuery
        (blockOf 0 [1, 2, 1, 2]) [7, 5]).status = TILEDB_MI_ERR ∧
      ((runBuilds freshIndex [(fiveSquares, 4), (twoSquares, 0)]).intersectQuery
        (blockOf 0 [1, 2, 1, 2]) [7, 5]).result = [7, 5] :=
  ⟨by decide,
    congrArg QueryOut.status
      (C4_query_on_empty_index [(fiveSquares, (4 : Int)), (twoSquares, (0 : Int))]
        (by decide) (blockOf 0 [1, 2, 1, 2]) [7, 5]).2.1,
    by decide⟩

/-- C5: round-trip containment. For `d` in {2, 3}, every list of blocks and every position
`i` whose block has `min_k <= max_k` on every axis, after `buildTree(mbrs, d)` the query whose
window is the block `mbrs[i]` succeeds and its result contains `i`, whatever the index and the
result vector held before. -/
theorem C5_round_trip {α : Type} [LinearOrder α] {R2 : SpatialTree (box2d α)}
    {R3 : SpatialTree (box3d α)} (h2 : SpatialTree.Lawful box2d.intersects R2)
    (h3 : SpatialTree.Lawful box3d.intersects R3) (d : Nat) (hd : d = 2 ∨ d = 3)
    (s : MbrIndex R2 R3) (mbrs : List (Block α)) (i : Nat) (hi : i < mbrs.length)
    (hord : ordered d mbrs[i]) (r0 : List Int) :
    (s.buildTree mbrs (d : Int)).status = TILEDB_MI_OK ∧
      ((s.buildTree mbrs (d : Int)).index.intersectQuery mbrs[i] r0).status = TILEDB_MI_OK ∧
      (i : Int) ∈ ((s.buildTree mbrs (d : Int)).index.intersectQuery mbrs[i] r0).result := by
  obtain ⟨hb, hq⟩ := query_after_build h2 h3 d hd s mbrs mbrs[i] r0
  refine ⟨hb, by rw [hq], ?_⟩
  rw [hq]
  refine (sortResult_perm _).mem_iff.mpr (List.mem_append_right _ ?_)
  rw [mem_bruteForce]
  exact ⟨i, hi, rfl, fun k hk => ⟨hord k hk, hord k hk⟩⟩

/-- C5 at a concrete input: the third cube finds itself. -/
theorem C5_round_trip_witness :
    ((3 : Nat) = 2 ∨ (3 : Nat) = 3) ∧ (∃ h : 2 < threeCubes.length, ordered 3 threeCubes[2]) ∧
      ((2 : Nat) : Int) ∈ ((freshIndex.buildTree threeCubes ((3 : Nat) : Int)).index.intersectQuery
        (blockOf 0 [1, 2, 1, 2, 7, 8]) []).result :=
  ⟨Or.inr rfl, ⟨by decide, fun k hk => by interval_cases k <;> decide⟩,
    (C5_round_trip (pack_rtree2d_lawful Int 2) (pack_rtree3d_lawful Int 2) 3 (Or.inr rfl)
      freshIndex threeCubes 2 (by decide) (fun k hk => by interval_cases k <;> decide) []).2.2⟩

/-- C6: boundary touch counts as intersecting, in 2D and in 3D alike. An entry whose block
meets the window on every axis with overlap or touch, and touches it on some axis
(`entry.max_k = window.min_k` or `window.max_k = entry.min_k`), is in the result. The spec's
example: with the squares `(0,0)-(1,1)` and `(2,2)-(3,3)` the window `(1,1)-(2,2)` yields
`[0, 1]` and the window `(5,5)-(6,6)` yields `[]`, on every lawful tree. -/
theorem C6_boundary_touch {α : Type} [LinearOrder α] {R2 : SpatialTree (box2d α)}
    {R3 : SpatialTree (box3d α)} (h2 : SpatialTree.Lawful box2d.intersects R2)
    (h3 : SpatialTree.Lawful box3d.intersects R3) {Z2 : SpatialTree (box2d Int)}
    (Z3 : SpatialTree (box3d Int)) (hz2 : SpatialTree.Lawful box2d.intersects Z2) :
    (∀ (d : Nat), d = 2 ∨ d = 3 → ∀ (s : MbrIndex R2 R3) (mbrs : List (Block α))
        (window : Block α) (r0 : List Int) (i : Nat) (hi : i < mbrs.length),
        axisOverlap d mbrs[i] window → touches d mbrs[i] window →
          ((s.buildTree mbrs (d : Int)).index.intersectQuery window r0).status = TILEDB_MI_OK ∧
          (i : Int) ∈ ((s.buildTree mbrs (d : Int)).index.intersectQuery window r0).result) ∧
      (((MbrIndex.new Z2 Z3).buildTree twoSquares 2).index.intersectQuery
        (blockOf 0 [1, 2, 1, 2]) []).result = [0, 1] ∧
      (((MbrIndex.new Z2 Z3).buildTree twoSquares 2).index.intersectQuery
        (blockOf 0 [5, 6, 5, 6]) []).result = [] ∧
      touches 2 (blockOf (0 : Int) [0, 1, 0, 1]) (blockOf 0 [1, 2, 1, 2]) ∧
      touches 2 (blockOf (0 : Int) [2, 3, 2, 3]) (blockOf 0 [1, 2, 1, 2]) := by
  refine ⟨?_, ?_, ?_, ⟨0, by decide, Or.inl (by decide)⟩, ⟨0, by decide, Or.inr (by decide)⟩⟩
  · intro d hd s mbrs window r0 i hi hov _
    obtain ⟨_, hq⟩ := query_after_build h2 h3 d hd s mbrs window r0
    rw [hq]
    refine ⟨rfl, (sortResult_perm _).mem_iff.mpr (List.mem_append_right _ ?_)⟩
    rw [mem_bruteForce]
    exact ⟨i, hi, rfl, hov⟩
  · rw [(query_after_build2d hz2 (MbrIndex.new Z2 Z3) twoSquares (blockOf 0 [1, 2, 1, 2]) []).2]
    show sortResult ([] ++ bruteForce 2 twoSquares (blockOf 0 [1, 2, 1, 2])) = [0, 1]
    decide
  · rw [(query_after_build2d hz2 (MbrIndex.new Z2 Z3) twoSquares (blockOf 0 [5, 6, 5, 6]) []).2]
    show sortResult ([] ++ bruteForce 2 twoSquares (blockOf 0 [5, 6, 5, 6])) = []
    decide

/-- C6 at a concrete input: the first cube and a window that share one face, and the spec's
example on the bulk-loaded tree. -/
theorem C6_boundary_touch_witness :
    ((3 : Nat) = 2 ∨ (3 : Nat) = 3) ∧
      axisOverlap 3 (blockOf (0 : Int) [0, 1, 0, 1, 0, 1]) (blockOf 0 [1, 5, 0, 1, 0, 1]) ∧
      touches 3 (blockOf (0 : Int) [0, 1, 0, 1, 0, 1]) (blockOf 0 [1, 5, 0, 1, 0, 1]) ∧
      ((0 : Nat) : Int) ∈ ((freshIndex.buildTree threeCubes ((3 : Nat) : Int)).index.intersectQuery
        (blockOf 0 [1, 5, 0, 1, 0, 1]) []).result ∧
      ((freshIndex.buildTree twoSquares 2).index.intersectQuery
        (blockOf 0 [1, 2, 1, 2]) []).result = [0, 1] :=
  ⟨Or.inr rfl, by decide, ⟨0, by decide, Or.inl (by decide)⟩,
    ((C6_boundary_touch (pack_rtree2d_lawful Int 2) (pack_rtree3d_lawful Int 2)
      (pack_rtree3d Int 2) (pack_rtree2d_lawful Int 2)).1 3 (Or.inr rfl) freshIndex
      threeCubes (blockOf 0 [1, 5, 0, 1, 0, 1]) [] 0 (by decide) (by decide)
      ⟨0, by decide, Or.inl (by decide)⟩).2,
    (C6_boundary_touch (pack_rtree2d_lawful Int 2) (pack_rtree3d_lawful Int 2)
      (pack_rtree3d Int 2) (pack_rtree2d_lawful Int 2)).2.1⟩

/-- C7: rebuild replaces. For `d1`, `d2` in {2, 3} (equal or not), an index after
`buildTree(mbrs1, d1)` and then `buildTree(mbrs2, d2)` answers every `intersectQuery` with the
status and the result of a fresh index after `buildTree(mbrs2, d2)` alone, namely the
brute-force answer over `mbrs2`: no entry of `mbrs1` is reported. -/
theorem C7_rebuild_replaces {α : Type} [LinearOrder α] {R2 : SpatialTree (box2d α)}
    {R3 : SpatialTree (box3d α)} (h2 : SpatialTree.Lawful box2d.intersects R2)
    (h3 : SpatialTree.Lawful box3d.intersects R3) (d1 d2 : Nat) (hd1 : d1 = 2 ∨ d1 = 3)
    (hd2 : d2 = 2 ∨ d2 = 3) (s : MbrIndex R2 R3) (mbrs1 mbrs2 : List (Block α))
    (window : Block α) (r0 : List Int) :
    (s.buildTree mbrs1 (d1 : Int)).status = TILEDB_MI_OK ∧
      ((s.buildTree mbrs1 (d1 : Int)).index.buildTree mbrs2 (d2 : Int)).status = TILEDB_MI_OK ∧
      (((s.buildTree mbrs1 (d1 : Int)).index.buildTree mbrs2 (d2 : Int)).index.intersectQuery
          window r0).status
        = (((MbrIndex.new R2 R3).buildTree mbrs2 (d2 : Int)).index.intersectQuery
          window r0).status ∧
      (((s.buildTree mbrs1 (d1 : Int)).index.buildTree mbrs2 (d2 : Int)).index.intersectQuery
          window r0).result
        = (((MbrIndex.new R2 R3).buildTree mbrs2 (d2 : Int)).index.intersectQuery
          window r0).result ∧
      (((s.buildTree mbrs1 (d1 : Int)).index.buildTree mbrs2 (d2 : Int)).index.intersectQuery
          window r0).result = sortResult (r0 ++ bruteForce d2 mbrs2 window) := by
  obtain ⟨hb1, _⟩ := query_after_build h2 h3 d1 hd1 s mbrs1 window r0
  obtain ⟨hb2, hq2⟩ :=
    query_after_build h2 h3 d2 hd2 (s.buildTree mbrs1 (d1 : Int)).index mbrs2 window r0
  obtain ⟨_, hq⟩ := query_after_build h2 h3 d2 hd2 (MbrIndex.new R2 R3) mbrs2 window r0
  refine ⟨hb1, hb2, ?_, ?_, ?_⟩
  · rw [hq2, hq]
  · rw [hq2, hq]
  · rw [hq2]

/-- C7 at a concrete input: a 3D build followed by a 2D build. -/
theorem C7_rebuild_replaces_witness :
    ((3 : Nat) = 2 ∨ (3 : Nat) = 3) ∧ ((2 : Nat) = 2 ∨ (2 : Nat) = 3) ∧
      (((freshIndex.buildTree threeCubes ((3 : Nat) : Int)).index.buildTree twoSquares
        ((2 : Nat) : Int)).index.intersectQuery (blockOf 0 [1, 2, 1, 2]) []).result = [0, 1] :=
  ⟨Or.inr rfl, Or.inl rfl,
    ((C7_rebuild_replaces (pack_rtree2d_lawful Int 2) (pack_rtree3d_lawful Int 2) 3 2
      (Or.inr rfl) (Or.inl rfl) freshIndex threeCubes twoSquares (blockOf 0 [1, 2, 1, 2])
      []).2.2.2.2).trans (by decide)⟩

/-- C8, as amended: box construction stores the caller's values as given. For every block,
the box built from it in `build2d`/`build3d` (and from the window in
`intersect2d`/`intersect3d`) has `min_corner[k] = block[2k]` and `max_corner[k] = block[2k+1]`
on every axis, so `min_corner[k] <= max_corner[k]` holds on every axis exactly when the caller
supplied `block[2k] <= block[2k+1]` on every axis; and every pair the build loop makes holds
the box of the block at its position. -/
theorem C8_box_stores_corners_as_given {α : Type} [LinearOrder α] (mbr : Block α)
    (mbrs : List (Block α)) :
    (mkBox2d mbr).min_corner = point2d.mk (mbr 0) (mbr 2) ∧
      (mkBox2d mbr).max_corner = point2d.mk (mbr 1) (mbr 3) ∧
      (mkBox3d mbr).min_corner = point3d.mk (mbr 0) (mbr 2) (mbr 4) ∧
      (mkBox3d mbr).max_corner = point3d.mk (mbr 1) (mbr 3) (mbr 5) ∧
      (((mkBox2d mbr).min_corner.get0 ≤ (mkBox2d mbr).max_corner.get0 ∧
          (mkBox2d mbr).min_corner.get1 ≤ (mkBox2d mbr).max_corner.get1) ↔ ordered 2 mbr) ∧
      (((mkBox3d mbr).min_corner.get0 ≤ (mkBox3d mbr).max_corner.get0 ∧
          (mkBox3d mbr).min_corner.get1 ≤ (mkBox3d mbr).max_corner.get1 ∧
          (mkBox3d mbr).min_corner.get2 ≤ (mkBox3d mbr).max_corner.get2) ↔ ordered 3 mbr) ∧
      (∀ v, v ∈ pairs2d 0 mbrs ↔ ∃ k, ∃ h : k < mbrs.length, v = (mkBox2d mbrs[k], k)) ∧
      (∀ v, v ∈ pairs3d 0 mbrs ↔ ∃ k, ∃ h : k < mbrs.length, v = (mkBox3d mbrs[k], k)) := by
  refine ⟨rfl, rfl, rfl, rfl, ?_, ?_, ?_, ?_⟩
  · constructor
    · rintro ⟨h0, h1⟩ k hk
      interval_cases k
      · exact h0
      · exact h1
    · intro h
      exact ⟨h 0 (by omega), h 1 (by omega)⟩
  · constructor
    · rintro ⟨h0, h1, h2⟩ k hk
      interval_cases k
      · exact h0
      · exact h1
      · exact h2
    · intro h
      exact ⟨h 0 (by omega), h 1 (by omega), h 2 (by omega)⟩
  · intro v
    simpa using mem_pairs2d mbrs 0 v
  · intro v
    simpa using mem_pairs3d mbrs 0 v

/-- C8 as stated fails: the block `[3, 0, 3, 0]` gives a box whose minimum corner lies above
its maximum corner, a box other than the one `[0, 3, 0, 3]` gives, and the two blocks answer
the window `(1,1)-(2,2)` differently: the inverted one is not reported, the ordered one is. -/
theorem C8_counterexample :
    ¬ ((mkBox2d (blockOf (0 : Int) [3, 0, 3, 0])).min_corner.get0
        ≤ (mkBox2d (blockOf (0 : Int) [3, 0, 3, 0])).max_corner.get0) ∧
      mkBox2d (blockOf (0 : Int) [3, 0, 3, 0]) ≠ mkBox2d (blockOf (0 : Int) [0, 3, 0, 3]) ∧
      ((freshIndex.buildTree [blockOf 0 [3, 0, 3, 0]] 2).index.intersectQuery
        (blockOf 0 [1, 2, 1, 2]) []).result = [] ∧
      ((freshIndex.buildTree [blockOf 0 [0, 3, 0, 3]] 2).index.intersectQuery
        (blockOf 0 [1, 2, 1, 2]) []).result = [0] := by
  decide

/-- C9: `testTree2d` checks one entry only. It returns `true` when the 2D tree holds no entry;
otherwise its result is exactly whether the first entry the iteration visits, with identity
`idx`, has stored corners equal to the caller's block `mbrs[idx]` (`min_x = mbrs[idx][0]`,
`max_x = mbrs[idx][1]`, `min_y = mbrs[idx][2]`, `max_y = mbrs[idx][3]`). Two trees with the
same first entry get the same result, and a tree whose first entry matches is accepted
although a later entry differs from `mbrs`. -/
theorem C9_testTree2d_checks_first_entry_only {α : Type} [DecidableEq α]
    {R2 : SpatialTree (box2d α)} {R3 : SpatialTree (box3d α)} (s : MbrIndex R2 R3)
    (mbrs : List (Block α)) :
    (R2.entries s.rtree2d_ = [] → s.testTree2d mbrs = some true) ∧
      (∀ (it : value2d α) (rest : List (value2d α)) (h : it.2 < mbrs.length),
        R2.entries s.rtree2d_ = it :: rest →
          s.testTree2d mbrs = some (decide (
            it.1.min_corner.get0 = mbrs[it.2] 0 ∧ it.1.max_corner.get0 = mbrs[it.2] 1 ∧
            it.1.min_corner.get1 = mbrs[it.2] 2 ∧ it.1.max_corner.get1 = mbrs[it.2] 3))) ∧
      (∀ s2 : MbrIndex R2 R3,
        (R2.entries s2.rtree2d_).head? = (R2.entries s.rtree2d_).head? →
          s2.testTree2d mbrs = s.testTree2d mbrs) ∧
      (∀ (it later : value2d α) (rest : List (value2d α)) (h : it.2 < mbrs.length)
        (h2 : later.2 < mbrs.length),
        R2.entries s.rtree2d_ = it :: rest → later ∈ rest →
          it.1 = mkBox2d mbrs[it.2] → later.1 ≠ mkBox2d mbrs[later.2] →
            s.testTree2d mbrs = some true) := by
  have hfirst : ∀ (it : value2d α) (rest : List (value2d α)) (h : it.2 < mbrs.length),
      R2.entries s.rtree2d_ = it :: rest →
        s.testTree2d mbrs = some (decide (
          it.1.min_corner.get0 = mbrs[it.2] 0 ∧ it.1.max_corner.get0 = mbrs[it.2] 1 ∧
          it.1.min_corner.get1 = mbrs[it.2] 2 ∧ it.1.max_corner.get1 = mbrs[it.2] 3)) := by
    intro it rest h he
    unfold MbrIndex.testTree2d
    rw [he]
    simp only [List.getElem?_eq_getElem h]
    congr 1
    rw [Bool.eq_iff_iff]
    simp only [Bool.and_eq_true, decide_eq_true_eq]
    tauto
  refine ⟨?_, hfirst, ?_, ?_⟩
  · intro he
    unfold MbrIndex.testTree2d
    rw [he]
  · intro s2 hh
    unfold MbrIndex.testTree2d
    cases h1 : R2.entries s.rtree2d_ with
    | nil =>
      rw [h1] at hh
      cases h2 : R2.entries s2.rtree2d_ with
      | nil => rfl
      | cons a l => rw [h2] at hh; simp at hh
    | cons b l =>
      rw [h1] at hh
      cases h2 : R2.entries s2.rtree2d_ with
      | nil => rw [h2] at hh; simp at hh
      | cons a l2 =>
        rw [h2] at hh
        simp only [List.head?_cons, Option.some.injEq] at hh
        subst hh
        rfl
  · intro it later rest h _ he _ hit _
    rw [hfirst it rest h he, hit]
    simp [mkBox2d]

/-- C9 at a concrete input: the tree built from `twoSquares` is accepted against a list whose
second block is another one, and refused against a list whose first block is another one. -/
theorem C9_testTree2d_checks_first_entry_only_witness :
    (pack_rtree2d Int 2).entries (freshIndex.buildTree twoSquares 2).index.rtree2d_
        = [(mkBox2d (blockOf 0 [0, 1, 0, 1]), 0), (mkBox2d (blockOf 0 [2, 3, 2, 3]), 1)] ∧
      (freshIndex.buildTree twoSquares 2).index.testTree2d
        [blockOf 0 [0, 1, 0, 1], blockOf 0 [7, 8, 7, 8]] = some true ∧
      (freshIndex.buildTree twoSquares 2).index.testTree2d
        [blockOf 0 [7, 8, 7, 8], blockOf 0 [2, 3, 2, 3]] = some false :=
  ⟨by decide,
    (C9_testTree2d_checks_first_entry_only (freshIndex.buildTree twoSquares 2).index
      [blockOf 0 [0, 1, 0, 1], blockOf 0 [7, 8, 7, 8]]).2.2.2
      (mkBox2d (blockOf 0 [0, 1, 0, 1]), 0) (mkBox2d (blockOf 0 [2, 3, 2, 3]), 1)
      [(mkBox2d (blockOf 0 [2, 3, 2, 3]), 1)] (by decide) (by decide) (by decide)
      (List.mem_singleton.mpr rfl) (by decide) (by decide),
    by decide⟩

/-- C10: `intersectQuery` appends to the caller's vector. For every index built with dim 2 or
3, every window and every initial content `r0`, the call succeeds and the final result is the
non-decreasing sort of `r0` followed by the matching identities: a rearrangement of the two,
as long as both together, and a second call with the same window into the same vector leaves
every matching identity in it two times more than `r0` held it. -/
theorem C10_query_appends {α : Type} [LinearOrder α] {R2 : SpatialTree (box2d α)}
    {R3 : SpatialTree (box3d α)} (h2 : SpatialTree.Lawful box2d.intersects R2)
    (h3 : SpatialTree.Lawful box3d.intersects R3) (d : Nat) (hd : d = 2 ∨ d = 3)
    (s : MbrIndex R2 R3) (mbrs : List (Block α)) (window : Block α) (r0 : List Int) :
    ((s.buildTree mbrs (d : Int)).index.intersectQuery window r0).status = TILEDB_MI_OK ∧
      ((s.buildTree mbrs (d : Int)).index.intersectQuery window r0).result
        = sortResult (r0 ++ bruteForce d mbrs window) ∧
      ((s.buildTree mbrs (d : Int)).index.intersectQuery window r0).result.Sorted
        (fun a b => a ≤ b) ∧
      ((s.buildTree mbrs (d : Int)).index.intersectQuery window r0).result.Perm
        (r0 ++ bruteForce d mbrs window) ∧
      ((s.buildTree mbrs (d : Int)).index.intersectQuery window r0).result.length
        = r0.length + (bruteForce d mbrs window).length ∧
      ((s.buildTree mbrs (d : Int)).index.intersectQuery window
        ((s.buildTree mbrs (d : Int)).index.intersectQuery window r0).result).status
          = TILEDB_MI_OK ∧
      ∀ z ∈ bruteForce d mbrs window,
        ((s.buildTree mbrs (d : Int)).index.intersectQuery window
          ((s.buildTree mbrs (d : Int)).index.intersectQuery window r0).result).result.count z
            = r0.count z + 2 := by
  have hq := fun r => (query_after_build h2 h3 d hd s mbrs window r).2
  have hperm := sortResult_perm (r0 ++ bruteForce d mbrs window)
  refine ⟨by rw [hq r0], by rw [hq r0], ?_, ?_, ?_, ?_, ?_⟩
  · rw [hq r0]
    exact sortResult_sorted _
  · rw [hq r0]
    exact hperm
  · rw [hq r0]
    show (sortResult (r0 ++ bruteForce d mbrs window)).length = _
    rw [hperm.length_eq, List.length_append]
  · rw [hq _]
  · intro z hz
    rw [hq _, hq r0]
    show (sortResult (sortResult (r0 ++ bruteForce d mbrs window)
      ++ bruteForce d mbrs window)).count z = _
    rw [(sortResult_perm _).count_eq, List.count_append, hperm.count_eq, List.count_append,
      List.count_eq_one_of_mem (bruteForce_sorted d mbrs window).nodup hz]

/-- C10 at a concrete input: a vector that holds `[9, 0]` on entry. -/
theorem C10_query_appends_witness :
    ((2 : Nat) = 2 ∨ (2 : Nat) = 3) ∧
      ((freshIndex.buildTree fiveSquares ((2 : Nat) : Int)).index.intersectQuery
        (blockOf 0 [1, 2, 1, 2]) [9, 0]).result = [0, 0, 1, 3, 9] ∧
      ((freshIndex.buildTree fiveSquares ((2 : Nat) : Int)).index.intersectQuery
        (blockOf 0 [1, 2, 1, 2]) [0, 0, 1, 3, 9]).result = [0, 0, 0, 1, 1, 3, 3, 9] :=
  ⟨Or.inl rfl,
    ((C10_query_appends (pack_rtree2d_lawful Int 2) (pack_rtree3d_lawful Int 2) 2 (Or.inl rfl)
      freshIndex fiveSquares (blockOf 0 [1, 2, 1, 2]) [9, 0]).2.1).trans (by decide),
    by decide⟩

/-! ## Further facts about the code -/

/-- `testTree2d` accepts the tree that `buildTree(mbrs, 2)` has just built from the same
blocks, whatever entry the iteration visits first, and it accepts every list on a fresh
index, whose 2D tree holds no entry. -/
theorem testTree2d_accepts_own_build {α : Type} [LinearOrder α] {R2 : SpatialTree (box2d α)}
    {R3 : SpatialTree (box3d α)} (h2 : SpatialTree.Lawful box2d.intersects R2)
    (s : MbrIndex R2 R3) (mbrs : List (Block α)) :
    (s.buildTree mbrs 2).index.testTree2d mbrs = some true ∧
      (MbrIndex.new R2 R3).testTree2d mbrs = some true := by
  refine ⟨?_, by unfold MbrIndex.testTree2d MbrIndex.new; simp only [h2.entries_empty]⟩
  have hp := h2.entries_pack (pairs2d 0 mbrs)
  show MbrIndex.testTree2d (MbrIndex.build2d { s with dim_num_ := 2 } mbrs) mbrs = some true
  unfold MbrIndex.testTree2d MbrIndex.build2d
  simp only
  cases he : R2.entries (R2.pack (pairs2d 0 mbrs)) with
  | nil => rfl
  | cons it rest =>
    rw [he] at hp
    obtain ⟨k, hk, rfl⟩ := (mem_pairs2d mbrs 0 it).mp (hp.mem_iff.mp (List.mem_cons_self _ _))
    simp [List.getElem?_eq_getElem hk, mkBox2d]

/-- The statement `testTree2d_accepts_own_build` at a concrete input. -/
theorem testTree2d_accepts_own_build_witness :
    (freshIndex.buildTree fiveSquares 2).index.testTree2d fiveSquares = some true :=
  (testTree2d_accepts_own_build (pack_rtree2d_lawful Int 2) freshIndex fiveSquares).1

/-- A successful `buildTree` stores the dimensionality it was given and assigns one tree only:
the tree of the other dimensionality stays as it was. -/
theorem buildTree_keeps_other_tree {α : Type} {R2 : SpatialTree (box2d α)}
    {R3 : SpatialTree (box3d α)} (s : MbrIndex R2 R3) (mbrs : List (Block α)) :
    (s.buildTree mbrs 2).index.dim_num_ = 2 ∧
      (s.buildTree mbrs 2).index.rtree2d_ = R2.pack (pairs2d 0 mbrs) ∧
      (s.buildTree mbrs 2).index.rtree3d_ = s.rtree3d_ ∧
      (s.buildTree mbrs 3).index.dim_num_ = 3 ∧
      (s.buildTree mbrs 3).index.rtree3d_ = R3.pack (pairs3d 0 mbrs) ∧
      (s.buildTree mbrs 3).index.rtree2d_ = s.rtree2d_ :=
  ⟨rfl, rfl, rfl, rfl, rfl, rfl⟩

/-- The method `intersectQuery` leaves the index as it found it, on every path. -/
theorem intersectQuery_keeps_index {α : Type} {R2 : SpatialTree (box2d α)}
    {R3 : SpatialTree (box3d α)} (s : MbrIndex R2 R3) (window : Block α) (r0 : List Int) :
    (s.intersectQuery window r0).index = s := by
  unfold MbrIndex.intersectQuery
  split
  · rfl
  · split <;> rfl

/-- A query reads the first `2 * dim_num_` values of the window and nothing else: two windows
that agree there are answered alike, so a 2D index cannot tell a 3D window from its first four
values. -/
theorem intersectQuery_reads_window_prefix_only {α : Type} {R2 : SpatialTree (box2d α)}
    {R3 : SpatialTree (box3d α)} (s : MbrIndex R2 R3) (w1 w2 : Block α) (r0 : List Int)
    (hw : ∀ k : Nat, (k : Int) < 2 * s.dim_num_ → w1 k = w2 k) :
    s.intersectQuery w1 r0 = s.intersectQuery w2 r0 := by
  unfold MbrIndex.intersectQuery
  by_cases h2 : s.dim_num_ = 2
  · have hb : mkBox2d w1 = mkBox2d w2 := by
      simp only [mkBox2d]
      rw [hw 0 (by rw [h2]; decide), hw 1 (by rw [h2]; decide), hw 2 (by rw [h2]; decide),
        hw 3 (by rw [h2]; decide)]
    simp only [h2, if_true, MbrIndex.intersect2d, hb]
  · by_cases h3 : s.dim_num_ = 3
    · have hb : mkBox3d w1 = mkBox3d w2 := by
        simp only [mkBox3d]
        rw [hw 0 (by rw [h3]; decide), hw 1 (by rw [h3]; decide), hw 2 (by rw [h3]; decide),
          hw 3 (by rw [h3]; decide), hw 4 (by rw [h3]; decide), hw 5 (by rw [h3]; decide)]
      rw [if_neg h2, if_neg h2, if_pos h3, if_pos h3]
      simp only [MbrIndex.intersect3d, hb]
    · rw [if_neg h2, if_neg h2, if_neg h3, if_neg h3]

/-- The statement `intersectQuery_reads_window_prefix_only` at a concrete input: a 2D index
answers a six-value window as it answers its first four values. -/
theorem intersectQuery_reads_window_prefix_only_witness :
    (∀ k : Nat, (k : Int) < 2 * (freshIndex.buildTree twoSquares 2).index.dim_num_ →
        blockOf (0 : Int) [1, 2, 1, 2, 50, 60] k = blockOf 0 [1, 2, 1, 2] k) ∧
      (freshIndex.buildTree twoSquares 2).index.intersectQuery
          (blockOf 0 [1, 2, 1, 2, 50, 60]) []
        = (freshIndex.buildTree twoSquares 2).index.intersectQuery (blockOf 0 [1, 2, 1, 2]) [] :=
  have hw : ∀ k : Nat, (k : Int) < 2 * (freshIndex.buildTree twoSquares 2).index.dim_num_ →
      blockOf (0 : Int) [1, 2, 1, 2, 50, 60] k = blockOf 0 [1, 2, 1, 2] k := by
    intro k hk
    have hk4 : k < 4 := by
      have h : (k : Int) < 2 * 2 := hk
      omega
    interval_cases k <;> rfl
  ⟨hw, intersectQuery_reads_window_prefix_only _ _ _ [] hw⟩

end TileDB
